import Mathlib

/-!
Verification of `master/buildbot/worker_transition.py`: the deprecation
aliasing layer that lets "slave"-named API be used under its old names
while the canonical names use "worker".

Strings are modelled as `List Char` (Python `str`); Python dictionaries
as association lists with first-match lookup and in-place overwrite on
assignment; assertion failures and unbounded recursion as `none`;
deprecation warnings as an explicit event trace.
-/

set_option autoImplicit false

namespace WorkerTransition

/-- Python strings are modelled as lists of characters. -/
abbrev PyStr := List Char

/-- Python `str.lower()`. The names in this module are ASCII, for which
`Char.toLower` agrees with Python. -/
def toLowerL (s : PyStr) : PyStr := s.map Char.toLower

/-- Python substring containment `pat in s`. -/
def containsSub (pat s : PyStr) : Bool :=
  match s with
  | [] => pat.isEmpty
  | _ :: rest => pat.isPrefixOf s || containsSub pat rest

/-- Recursion worker for `replaceAllL`.  The `fuel` argument makes the
recursion structural (each step consumes at least one character, so
`fuel = s.length` is always enough); when the fuel runs out the rest of
the string is returned unchanged, a case never reached from
`replaceAllL`. -/
def replaceAllAux : Nat → PyStr → PyStr → PyStr → PyStr
  | 0, s, _, _ => s
  | _ + 1, [], _, _ => []
  | fuel + 1, c :: rest, pat, rep =>
    if ¬pat.isEmpty ∧ pat.isPrefixOf (c :: rest) then
      rep ++ replaceAllAux fuel ((c :: rest).drop pat.length) pat rep
    else
      c :: replaceAllAux fuel rest pat rep

/-- Python `s.replace(pat, rep)`: left-to-right, non-overlapping
replacement of every occurrence of `pat` by `rep`.  (Python's special
behaviour for an empty pattern is not needed here: the module only ever
replaces the non-empty words "worker" and "Worker".) -/
def replaceAllL (s pat rep : PyStr) : PyStr :=
  replaceAllAux s.length s pat rep

def workerLow : PyStr := "worker".data
def workerCap : PyStr := "Worker".data
def slaveLow : PyStr := "slave".data
def slaveCap : PyStr := "Slave".data

/-- Embedding of `_compat_name(new_name, compat_name=None)` from
`worker_transition.py` lines 59-95.  Assertion failures are `none`.

Override path: `assert "slave" in compat_name.lower()`,
`assert "worker" in new_name.lower()`, return `compat_name`.

Derivation path: `assert "slave" not in new_name.lower()`,
`assert "worker" in new_name.lower()`, replace `"worker" -> "slave"`
and `"Worker" -> "Slave"` (the two replacements are independent, so
the unspecified Python-2 dict iteration order does not matter), then
`assert compat_name != new_name`, `assert "slave" in compat_name.lower()`,
`assert "worker" not in compat_name.lower()`. -/
def compatNameF (newName : PyStr) (compat : Option PyStr) : Option PyStr :=
  match compat with
  | some cn =>
    if containsSub slaveLow (toLowerL cn) then
      if containsSub workerLow (toLowerL newName) then
        some cn
      else none
    else none
  | none =>
    if containsSub slaveLow (toLowerL newName) then none
    else if containsSub workerLow (toLowerL newName) then
      let r := replaceAllL (replaceAllL newName workerLow slaveLow) workerCap slaveCap
      if r = newName then none
      else if containsSub slaveLow (toLowerL r) then
        if containsSub workerLow (toLowerL r) then none
        else some r
      else none
    else none

/-! Python dictionaries as association lists: first-match lookup,
assignment overwrites the first matching key in place. -/

/-- Python `d.get(k)` / `k in d` on a dictionary. -/
def dictGet {α : Type} (d : List (PyStr × α)) (k : PyStr) : Option α :=
  match d with
  | [] => none
  | (q, v) :: rest => if q = k then some v else dictGet rest k

/-- Python `d[k] = v`: overwrite the binding of `k` when present,
otherwise add one. -/
def dictSet {α : Type} (d : List (PyStr × α)) (k : PyStr) (v : α) :
    List (PyStr × α) :=
  match d with
  | [] => [(k, v)]
  | (q, w) :: rest => if q = k then (k, v) :: rest else (q, w) :: dictSet rest k v

/-! Deprecation warnings as an explicit event trace.  `nameEvt` models a
`DeprecatedWorkerNameWarning` (category NAME), `moduleEvt` a
`DeprecatedWorkerModuleWarning` (category MODULE). -/

inductive Event where
  | nameEvt (msg : PyStr)
  | moduleEvt (msg : PyStr)
deriving DecidableEq

def isNameEvt : Event → Bool
  | .nameEvt _ => true
  | .moduleEvt _ => false

/-- Number of category-NAME deprecation events in a trace. -/
def countNameEvts (evs : List Event) : Nat :=
  (evs.filter isNameEvt).length

/-- The ASCII single-quote character used by the warning format strings. -/
def quoteChar : Char := Char.ofNat 39

/-- A name surrounded by single quotes, as the format strings produce. -/
def quoted (s : PyStr) : PyStr := quoteChar :: (s ++ [quoteChar])

/-- Message of `define_old_worker_func`, line 273-275. -/
def funcDeprMsg (old new : PyStr) : PyStr :=
  quoted old ++ " function is deprecated, use ".data ++ quoted new ++ " instead.".data

/-- Message of `define_old_worker_method`, line 258-260. -/
def methodDeprMsg (old new : PyStr) : PyStr :=
  quoted old ++ " method is deprecated, use ".data ++ quoted new ++ " instead.".data

/-- Message of `deprecated_worker_class.__new__`, line 204-206. -/
def classDeprMsg (old new : PyStr) : PyStr :=
  quoted old ++ " class is deprecated, use ".data ++ quoted new ++ " instead.".data

/-- Message of the mixin attribute warnings, lines 296-298 and 306-308. -/
def attrDeprMsg (old new : PyStr) : PyStr :=
  quoted old ++ " attribute is deprecated, use ".data ++ quoted new ++ " instead.".data

/-! The scope-level effect of the installers.  A module or class scope is
a dictionary from names to Python objects; the objects themselves are
identified just far enough to distinguish the installed wrappers and
arbitrary plain values. -/

inductive Obj where
  | val (n : Nat)
  | propWrapper (newName : PyStr)
  | methodWrapper (newName : PyStr)
  | funcWrapper (newName : PyStr)
  | classWrapper (newName : PyStr)
deriving DecidableEq

abbrev Scope := List (PyStr × Obj)

/-- Embedding of `define_old_worker_property(scope, name, compat_name=None)`,
lines 235-246: derive the legacy name, `assert compat_name not in scope`,
then install a read-only property wrapper under the legacy name. -/
def define_old_worker_property (scope : Scope) (newName : PyStr)
    (compat : Option PyStr) : Option Scope :=
  match compatNameF newName compat with
  | none => none
  | some cn =>
    if (dictGet scope cn).isSome then none
    else some (dictSet scope cn (.propWrapper newName))

/-- Embedding of `define_old_worker_method(scope, method, compat_name=None)`,
lines 249-265: derive the legacy name from `method.__name__`,
`assert compat_name not in scope`, then install the delegating wrapper
under the legacy name. -/
def define_old_worker_method (scope : Scope) (methodName : PyStr)
    (compat : Option PyStr) : Option Scope :=
  match compatNameF methodName compat with
  | none => none
  | some cn =>
    if (dictGet scope cn).isSome then none
    else some (dictSet scope cn (.methodWrapper methodName))

/-- Embedding of `define_old_worker_func(scope, func, compat_name=None)`,
lines 268-280: derive the legacy name from `func.__name__` and install
the delegating wrapper.  Note: unlike the property and method installers,
the source has no `assert compat_name not in scope` here. -/
def define_old_worker_func (scope : Scope) (funcName : PyStr)
    (compat : Option PyStr) : Option Scope :=
  match compatNameF funcName compat with
  | none => none
  | some cn => some (dictSet scope cn (.funcWrapper funcName))

/-- Scope-level effect of `define_old_worker_class(scope, cls,
compat_name=None)`, lines 225-232: build the compat class via
`deprecated_worker_class` and bind it under its (legacy) name.  No
duplicate check is performed. -/
def define_old_worker_class (scope : Scope) (clsName : PyStr)
    (compat : Option PyStr) : Option Scope :=
  match compatNameF clsName compat with
  | none => none
  | some cn => some (dictSet scope cn (.classWrapper clsName))

/-- Embedding of `scope.keys()[scope.values().index(attribute)]`, line 186: the first
key of the scope whose value equals the attribute (`none` models the
`ValueError` when the value is absent). -/
def findAttrName (scope : Scope) (attr : Obj) : Option PyStr :=
  match scope with
  | [] => none
  | (k, v) :: rest => if v = attr then some k else findAttrName rest attr

/-- Embedding of `deprecatedWorkerModuleAttribute(scope, attribute, compat_name=None)`,
lines 176-195: look up the attribute's name in the scope, derive the
legacy name, and rebind the very same value under the legacy name
(`scope[compat_name] = attribute`).  The subsequent Twisted
`deprecatedModuleAttribute` call only arranges the module-access warning
and does not change the binding, so it is not part of the scope model. -/
def deprecatedWorkerModuleAttribute (scope : Scope) (attr : Obj)
    (compat : Option PyStr) : Option Scope :=
  match findAttrName scope attr with
  | none => none
  | some attrName =>
    match compatNameF attrName compat with
    | none => none
    | some cn => some (dictSet scope cn attr)

/-! Call-level behaviour of the function and method wrappers.  A Python
callable is modelled as a Lean function returning its result together
with the trace of deprecation events it emits itself. -/

/-- The `old_func` closure built by `define_old_worker_func`,
lines 272-276: emit one NAME deprecation event, then call the canonical
function with the same arguments and return its result. -/
def mkOldFunc {α β : Type} (funcName cn : PyStr)
    (func : α → β × List Event) : α → β × List Event :=
  fun a => ((func a).1, Event.nameEvt (funcDeprMsg cn funcName) :: (func a).2)

/-- An object as seen by the method wrapper: a table resolving method
names, as `getattr(self, method_name)` does. -/
structure MethodObj (α β : Type) where
  methods : List (PyStr × (α → β × List Event))

/-- The `old_method` closure built by `define_old_worker_method`,
lines 257-261: emit one NAME deprecation event, then look up the
canonical method on `self` and call it with the same arguments
(`none` models the `AttributeError` when the lookup fails). -/
def mkOldMethod {α β : Type} (methodName cn : PyStr)
    (self : MethodObj α β) (a : α) : Option (β × List Event) :=
  match dictGet self.methods methodName with
  | none => none
  | some m => some ((m a).1, Event.nameEvt (methodDeprMsg cn methodName) :: (m a).2)

/-! Whole-class aliasing (`deprecated_worker_class`, lines 198-222). -/

/-- An instance: the name of the class it was constructed as, plus the
payload its construction hook produced. -/
structure Inst where
  clsName : PyStr
  payload : List Nat
deriving DecidableEq

/-- A canonical class: its name, the names of its ancestors, and its
construction hook.  `newHook = none` models a class whose `__new__` is
`object.__new__` (accepting no extra arguments); `newHook = some h`
models an overloaded `__new__` receiving the instantiated class and the
arguments. -/
structure PyClass where
  name : PyStr
  ancestors : List PyStr
  newHook : Option (PyStr → List Nat → Inst)

/-- Python `object.__new__(instance_cls)`: a blank instance of the given class. -/
def objectNew (instCls : PyStr) : Inst := ⟨instCls, []⟩

/-- The compat class built by `deprecated_worker_class`: its (legacy)
name, its base classes (`(cls,)` plus the ancestors of `cls`), and the
effect of instantiating it. -/
structure CompatClass where
  name : PyStr
  bases : List PyStr
  mkInst : List Nat → Inst × List Event

/-- Embedding of `deprecated_worker_class(cls, class_name=None)`, lines 198-222:
derive the legacy name from `cls.__name__`, and build a subclass of
`cls` under the legacy name whose `__new__` emits one NAME deprecation
event and then constructs the instance — through `cls.__new__` with the
original arguments when `cls` overloads `__new__`, through
`object.__new__` (which accepts no extra arguments) otherwise. -/
def deprecated_worker_class (cls : PyClass) (className : Option PyStr) :
    Option CompatClass :=
  match compatNameF cls.name className with
  | none => none
  | some cn =>
    some { name := cn
           bases := cls.name :: cls.ancestors
           mkInst := fun args =>
             match cls.newHook with
             | none => (objectNew cn, [Event.nameEvt (classDeprMsg cn cls.name)])
             | some h => (h cn args, [Event.nameEvt (classDeprMsg cn cls.name)]) }

/-- Python `isinstance`, for an instance of the compat class: the target
class name is the compat class itself or one of its bases. -/
def isInstanceOf (i : Inst) (c : CompatClass) (target : PyStr) : Prop :=
  i.clsName = c.name ∧ (target = c.name ∨ target ∈ c.bases)

/-! The per-instance interceptor (`WorkerAPICompatMixin`,
lines 283-327).  An instance is its class name plus its `__dict__`; the
alias map lives inside `__dict__` under the reserved key
`_compat_attrs_mapping`, exactly as in the source. -/

/-- A value stored in an instance `__dict__`: either a plain value or
the alias-map dictionary. -/
inductive PyVal where
  | num (n : Int)
  | attrMap (m : List (PyStr × PyStr))
deriving DecidableEq

structure MixinState where
  className : PyStr
  dict : List (PyStr × PyVal)
deriving DecidableEq

/-- The reserved `__dict__` key holding the Per-instance Alias Map,
line 318-319. -/
def compatAttrsKey : PyStr := "_compat_attrs_mapping".data

/-- The `__compat_attrs` property, lines 313-320: lazily create the
alias map in `self.__dict__` on first use, then return it.  The callers
immediately use it as a dictionary, so a non-dictionary value stored
under the reserved key (only possible through a direct assignment)
makes them fail with a `TypeError`, modelled as `none`. -/
def getCompatAttrs (s : MixinState) :
    Option (List (PyStr × PyStr) × MixinState) :=
  match dictGet s.dict compatAttrsKey with
  | none => some ([], { s with dict := dictSet s.dict compatAttrsKey (.attrMap []) })
  | some (.attrMap m) => some (m, s)
  | some _ => none

/-- The AttributeError message of `__getattr__`, lines 288-291. -/
def attrErrMsg (clsName attrName : PyStr) : PyStr :=
  quoted clsName ++ " object has no attribute ".data ++ quoted attrName

/-- Embedding of `WorkerAPICompatMixin.__setattr__`, lines 302-311: if the assigned
name is a registered legacy name, emit one NAME deprecation event and
redirect the assignment to the canonical attribute (re-entering
`__setattr__`); otherwise perform an ordinary `__dict__` assignment.
`fuel` bounds the re-entry depth (`none` models the stack overflow a
cyclic alias map would cause). -/
def pySetattr : Nat → MixinState → PyStr → PyVal → Option (MixinState × List Event)
  | 0, _, _, _ => none
  | fuel + 1, s, name, v =>
    match getCompatAttrs s with
    | none => none
    | some (m, s1) =>
      match dictGet m name with
      | some newName =>
        match pySetattr fuel s1 newName v with
        | none => none
        | some (s2, evs) =>
          some (s2, Event.nameEvt (attrDeprMsg name newName) :: evs)
      | none => some ({ s1 with dict := dictSet s1.dict name v }, [])

/-- Result of an attribute read: the value (with the possibly
lazily-initialised state and the emitted events) or an AttributeError. -/
inductive GetResult where
  | ok (v : PyVal) (s : MixinState) (evs : List Event)
  | attrError (msg : PyStr) (evs : List Event)
deriving DecidableEq

/-- Attribute read on a mixin instance: ordinary `__dict__` lookup
first; on a miss Python calls `WorkerAPICompatMixin.__getattr__`,
lines 286-300, which raises an AttributeError naming the class and the
attribute when the name is not a registered legacy name, and otherwise
emits one NAME deprecation event and reads the canonical attribute via
`getattr`.  `fuel` bounds the re-entry depth as in `pySetattr`. -/
def pyGetattr : Nat → MixinState → PyStr → Option GetResult
  | 0, _, _ => none
  | fuel + 1, s, name =>
    match dictGet s.dict name with
    | some v => some (.ok v s [])
    | none =>
      match getCompatAttrs s with
      | none => none
      | some (m, s1) =>
        match dictGet m name with
        | none => some (.attrError (attrErrMsg s.className name) [])
        | some newName =>
          match pyGetattr fuel s1 newName with
          | none => none
          | some (.ok v s2 evs) =>
            some (.ok v s2 (Event.nameEvt (attrDeprMsg name newName) :: evs))
          | some (.attrError msg evs) =>
            some (.attrError msg (Event.nameEvt (attrDeprMsg name newName) :: evs))

/-- Embedding of `WorkerAPICompatMixin._registerOldWorkerAttr(attr_name, name=None)`,
lines 322-327: derive the legacy name, `assert compat_name not in
self.__dict__`, `assert compat_name not in self.__compat_attrs`, then
record `legacy -> canonical` in the alias map. -/
def registerOldWorkerAttr (s : MixinState) (attrName : PyStr)
    (name : Option PyStr) : Option MixinState :=
  match compatNameF attrName name with
  | none => none
  | some cn =>
    if (dictGet s.dict cn).isSome then none
    else
      match getCompatAttrs s with
      | none => none
      | some (m, s1) =>
        if (dictGet m cn).isSome then none
        else some { s1 with
          dict := dictSet s1.dict compatAttrsKey (.attrMap (dictSet m cn attrName)) }

/-! Instrumented derivation, for the purity claim.  The ambient world an
operation of this module could act on is the warning trace plus a scope
dictionary; `compatNameRun` repeats `_compat_name` statement by
statement over that world.  No statement of `_compat_name` (lines
59-95: assertions, `str.lower`, `str.replace`, a dict literal) emits a
warning or touches a scope, so each translated step passes the world
through unchanged. -/

abbrev World := List Event × Scope

/-- The function `_compat_name` threaded through the ambient world (see above). -/
def compatNameRun (newName : PyStr) (compat : Option PyStr) (w : World) :
    Option (PyStr × World) :=
  match compat with
  | some cn =>
    if containsSub slaveLow (toLowerL cn) then
      if containsSub workerLow (toLowerL newName) then
        some (cn, w)
      else none
    else none
  | none =>
    if containsSub slaveLow (toLowerL newName) then none
    else if containsSub workerLow (toLowerL newName) then
      let r := replaceAllL (replaceAllL newName workerLow slaveLow) workerCap slaveCap
      if r = newName then none
      else if containsSub slaveLow (toLowerL r) then
        if containsSub workerLow (toLowerL r) then none
        else some (r, w)
      else none
    else none

/-! Basic facts about the dictionary model. -/

theorem dictGet_dictSet_same {α : Type} (d : List (PyStr × α)) (k : PyStr) (v : α) :
    dictGet (dictSet d k v) k = some v := by
  induction d with
  | nil => simp [dictGet, dictSet]
  | cons p rest ih =>
    obtain ⟨q, w⟩ := p
    by_cases h : q = k <;> simp [dictGet, dictSet, h, ih]

theorem dictGet_dictSet_other {α : Type} (d : List (PyStr × α)) (k q : PyStr) (v : α)
    (h : q ≠ k) : dictGet (dictSet d k v) q = dictGet d q := by
  have hkq : k ≠ q := fun he => h he.symm
  induction d with
  | nil => simp [dictGet, dictSet, hkq]
  | cons p rest ih =>
    obtain ⟨p1, p2⟩ := p
    by_cases h1 : p1 = k
    · subst h1
      simp [dictGet, dictSet, hkq]
    · by_cases h2 : p1 = q <;> simp [dictGet, dictSet, h, h1, h2, ih]

theorem findAttrName_mem_keys (scope : Scope) (attr : Obj) (k : PyStr)
    (h : findAttrName scope attr = some k) : k ∈ scope.map Prod.fst := by
  induction scope with
  | nil => simp [findAttrName] at h
  | cons p rest ih =>
    obtain ⟨q, w⟩ := p
    by_cases hw : w = attr
    · simp only [findAttrName, if_pos hw, Option.some.injEq] at h
      subst h
      simp only [List.map_cons, List.mem_cons]
      exact Or.inl trivial
    · simp only [findAttrName, if_neg hw] at h
      simp only [List.map_cons, List.mem_cons]
      exact Or.inr (ih h)

theorem findAttrName_dictGet (scope : Scope) (attr : Obj) (k : PyStr)
    (hnd : (scope.map Prod.fst).Nodup)
    (h : findAttrName scope attr = some k) : dictGet scope k = some attr := by
  induction scope with
  | nil => simp [findAttrName] at h
  | cons p rest ih =>
    obtain ⟨q, w⟩ := p
    by_cases hw : w = attr
    · simp only [findAttrName, if_pos hw, Option.some.injEq] at h
      subst h
      simp [dictGet, hw]
    · simp only [findAttrName, if_neg hw] at h
      have hk : k ∈ rest.map Prod.fst := findAttrName_mem_keys rest attr k h
      simp only [List.map_cons, List.nodup_cons] at hnd
      have hqk : q ≠ k := fun he => hnd.1 (he ▸ hk)
      simp [dictGet, hqk, ih hnd.2 h]

theorem countNameEvts_cons_name (msg : PyStr) (evs : List Event) :
    countNameEvts (Event.nameEvt msg :: evs) = countNameEvts evs + 1 := by
  simp [countNameEvts, isNameEvt, List.filter]

/-- Invariants of `getCompatAttrs`: the returned state carries the returned
alias map under the reserved key, other attributes are untouched, and
the map is either the one already stored or a freshly created empty one. -/
theorem getCompatAttrs_spec (s : MixinState) (m : List (PyStr × PyStr))
    (s1 : MixinState) (h : getCompatAttrs s = some (m, s1)) :
    s1.className = s.className ∧
    dictGet s1.dict compatAttrsKey = some (.attrMap m) ∧
    (∀ k, k ≠ compatAttrsKey → dictGet s1.dict k = dictGet s.dict k) ∧
    (dictGet s.dict compatAttrsKey = some (.attrMap m) ∨
      (dictGet s.dict compatAttrsKey = none ∧ m = [])) := by
  unfold getCompatAttrs at h
  cases hd : dictGet s.dict compatAttrsKey with
  | none =>
    rw [hd] at h
    simp only [Option.some.injEq, Prod.mk.injEq] at h
    obtain ⟨hm, hs⟩ := h
    subst hm
    subst hs
    refine ⟨rfl, ?_, ?_, Or.inr ⟨rfl, rfl⟩⟩
    · simp [dictGet_dictSet_same]
    · intro k hk
      simp [dictGet_dictSet_other _ _ _ _ hk]
  | some v =>
    rw [hd] at h
    cases v with
    | num n => simp at h
    | attrMap m0 =>
      simp only [Option.some.injEq, Prod.mk.injEq] at h
      obtain ⟨hm, hs⟩ := h
      subst hm
      subst hs
      exact ⟨rfl, hd, fun k _ => rfl, Or.inl rfl⟩

/-- The instrumented derivation agrees with the plain one and passes the
world through unchanged. -/
theorem compatNameRun_eq_compatNameF (n : PyStr) (c : Option PyStr) (w : World) :
    compatNameRun n c w = (compatNameF n c).map (fun r => (r, w)) := by
  cases c with
  | none =>
    simp only [compatNameRun, compatNameF]
    split_ifs <;> rfl
  | some cn =>
    simp only [compatNameRun, compatNameF]
    split_ifs <;> rfl

/-- Claim C2: with no override, derivation replaces the lowercase and
capitalized variants of "worker" by "slave"/"Slave"; a successful result
has the new term fully replaced (no "worker" in its lowercase form) and
the old term present, and the input contained the new term and not the
old one; derivation fails when the canonical name does not contain the
new term, when it already contains the old term, when the replacement
result equals the input, and when the result still contains the new
term. -/
theorem c2_name_derivation (n : PyStr) :
    (∀ r, compatNameF n none = some r →
      r = replaceAllL (replaceAllL n workerLow slaveLow) workerCap slaveCap ∧
      containsSub slaveLow (toLowerL r) = true ∧
      containsSub workerLow (toLowerL r) = false ∧
      containsSub workerLow (toLowerL n) = true ∧
      containsSub slaveLow (toLowerL n) = false ∧
      r ≠ n) ∧
    (containsSub workerLow (toLowerL n) = false → compatNameF n none = none) ∧
    (containsSub slaveLow (toLowerL n) = true → compatNameF n none = none) ∧
    (replaceAllL (replaceAllL n workerLow slaveLow) workerCap slaveCap = n →
      compatNameF n none = none) ∧
    (containsSub workerLow
        (toLowerL (replaceAllL (replaceAllL n workerLow slaveLow) workerCap slaveCap)) = true →
      compatNameF n none = none) := by
  refine ⟨?_, ?_, ?_, ?_, ?_⟩
  · intro r hr
    simp only [compatNameF] at hr
    split_ifs at hr with h1 h2 h3 h4 h5
    simp only [Option.some.injEq] at hr
    subst hr
    refine ⟨rfl, h4, ?_, h2, ?_, fun he => h3 he⟩
    · simp only [Bool.not_eq_true] at h5
      exact h5
    · simp only [Bool.not_eq_true] at h1
      exact h1
  · intro h
    simp only [compatNameF]
    split_ifs <;> simp_all
  · intro h
    simp only [compatNameF]
    split_ifs
    simp_all
  · intro h
    simp only [compatNameF]
    split_ifs <;> simp_all
  · intro h
    simp only [compatNameF]
    split_ifs <;> simp_all

/-- Closed instantiation of `c2_name_derivation`. -/
theorem c2_name_derivation_witness :
    ("SomeSlave".data = replaceAllL (replaceAllL "SomeWorker".data workerLow slaveLow)
        workerCap slaveCap ∧
      containsSub slaveLow (toLowerL "SomeSlave".data) = true ∧
      containsSub workerLow (toLowerL "SomeSlave".data) = false ∧
      containsSub workerLow (toLowerL "SomeWorker".data) = true ∧
      containsSub slaveLow (toLowerL "SomeWorker".data) = false ∧
      "SomeSlave".data ≠ "SomeWorker".data) ∧
    compatNameF "builder".data none = none ∧
    compatNameF "slaveworker".data none = none ∧
    compatNameF "WORKERthing".data none = none ∧
    compatNameF "workerWORKER".data none = none := by
  refine ⟨(c2_name_derivation "SomeWorker".data).1 "SomeSlave".data (by decide),
    (c2_name_derivation "builder".data).2.1 (by decide),
    (c2_name_derivation "slaveworker".data).2.2.1 (by decide),
    (c2_name_derivation "WORKERthing".data).2.2.2.1 (by decide),
    (c2_name_derivation "workerWORKER".data).2.2.2.2 (by decide)⟩

/-- Claim C3 as stated is false: the override path never checks that the
override is free of the new term, so an explicit override containing
"worker" is accepted.  `_compat_name("SomeWorker",
compat_name="SlaveWorker")` returns "SlaveWorker", which contains the
new term. -/
theorem c3_counterexample :
    compatNameF "SomeWorker".data (some "SlaveWorker".data) =
      some "SlaveWorker".data ∧
    containsSub workerLow (toLowerL "SlaveWorker".data) = true := by decide

/-- Claim C3 amended: the override path validates that the override
contains the old term and that the canonical name contains the new
term, fails when either containment check fails, and otherwise returns
the override unchanged (so the accepted legacy name contains the old
term); no check excludes the new term from an explicit override. -/
theorem c3_override_validation (n cn : PyStr) :
    (containsSub slaveLow (toLowerL cn) = false → compatNameF n (some cn) = none) ∧
    (containsSub workerLow (toLowerL n) = false → compatNameF n (some cn) = none) ∧
    (∀ r, compatNameF n (some cn) = some r →
      r = cn ∧ containsSub slaveLow (toLowerL r) = true ∧
      containsSub workerLow (toLowerL n) = true) := by
  refine ⟨?_, ?_, ?_⟩
  · intro h
    simp only [compatNameF]
    split_ifs <;> simp_all
  · intro h
    simp only [compatNameF]
    split_ifs <;> simp_all
  · intro r hr
    simp only [compatNameF] at hr
    split_ifs at hr with h1 h2
    simp only [Option.some.injEq] at hr
    subst hr
    exact ⟨rfl, h1, h2⟩

/-- Closed instantiation of `c3_override_validation`. -/
theorem c3_override_validation_witness :
    compatNameF "SomeWorker".data (some "SomeOld".data) = none ∧
    compatNameF "SomeThing".data (some "SomeSlave".data) = none ∧
    ("SomeBuildSlave".data = "SomeBuildSlave".data ∧
      containsSub slaveLow (toLowerL "SomeBuildSlave".data) = true ∧
      containsSub workerLow (toLowerL "SomeWorker".data) = true) := by
  refine ⟨(c3_override_validation "SomeWorker".data "SomeOld".data).1 (by decide),
    (c3_override_validation "SomeThing".data "SomeSlave".data).2.1 (by decide),
    (c3_override_validation "SomeWorker".data "SomeBuildSlave".data).2.2
      "SomeBuildSlave".data (by decide)⟩

/-- Claim C9: name derivation is deterministic and pure.  Running the
instrumented `_compat_name` in any two ambient worlds produces the same
name, a successful run leaves the world it ran in unchanged, and the
produced name is the one the pure derivation function computes. -/
theorem c9_derivation_pure (n : PyStr) (c : Option PyStr) (w1 w2 : World) :
    ((compatNameRun n c w1).map Prod.fst = (compatNameRun n c w2).map Prod.fst) ∧
    (∀ r w3, compatNameRun n c w1 = some (r, w3) →
      w3 = w1 ∧ compatNameF n c = some r) := by
  constructor
  · rw [compatNameRun_eq_compatNameF, compatNameRun_eq_compatNameF]
    cases compatNameF n c <;> simp
  · intro r w3 h
    rw [compatNameRun_eq_compatNameF] at h
    cases hf : compatNameF n c with
    | none => rw [hf] at h; simp at h
    | some a =>
      rw [hf] at h
      simp at h
      exact ⟨h.2.symm, by rw [h.1]⟩

/-- Closed instantiation of `c9_derivation_pure`. -/
theorem c9_derivation_pure_witness :
    ((compatNameRun "Worker".data none ([], [])).map Prod.fst =
      (compatNameRun "Worker".data none
        ([Event.moduleEvt []], [("x".data, Obj.val 0)])).map Prod.fst) ∧
    (([] : List Event), ([] : Scope)) = ([], []) ∧
    compatNameF "Worker".data none = some "Slave".data := by
  have h := c9_derivation_pure "Worker".data none ([], [])
    ([Event.moduleEvt []], [("x".data, Obj.val 0)])
  have h2 := h.2 "Slave".data ([], []) (by decide)
  exact ⟨h.1, h2.1, h2.2⟩

/-- Claim C1 as stated is false: `define_old_worker_func` performs no
duplicate check, so installing a function alias into a scope that
already binds the derived legacy name "someSlave" succeeds (silently
rebinding the name) instead of failing with an assertion error. -/
theorem c1_counterexample :
    dictGet [("someSlave".data, Obj.val 0)] "someSlave".data = some (Obj.val 0) ∧
    define_old_worker_func [("someSlave".data, Obj.val 0)] "someWorker".data none =
      some [("someSlave".data, Obj.funcWrapper "someWorker".data)] := by decide

/-- Claim C1 amended: when the derived legacy name is already bound in
the target scope, installation fails by assertion only for the class
property and class method shapes and for per-instance attribute
registration (both against the instance dictionary and against the
alias map); the free function, whole class, and module attribute shapes
perform no duplicate check and rebind the legacy name. -/
theorem c1_duplicate_handling (scope : Scope) (newName : PyStr)
    (compat : Option PyStr) (cn : PyStr)
    (hcn : compatNameF newName compat = some cn)
    (hdup : (dictGet scope cn).isSome = true) :
    define_old_worker_property scope newName compat = none ∧
    define_old_worker_method scope newName compat = none ∧
    define_old_worker_func scope newName compat =
      some (dictSet scope cn (.funcWrapper newName)) ∧
    define_old_worker_class scope newName compat =
      some (dictSet scope cn (.classWrapper newName)) ∧
    (∀ attr : Obj, findAttrName scope attr = some newName →
      deprecatedWorkerModuleAttribute scope attr compat =
        some (dictSet scope cn attr)) ∧
    (∀ s : MixinState, (dictGet s.dict cn).isSome = true →
      registerOldWorkerAttr s newName compat = none) ∧
    (∀ (s : MixinState) (m : List (PyStr × PyStr)),
      dictGet s.dict cn = none →
      dictGet s.dict compatAttrsKey = some (.attrMap m) →
      (dictGet m cn).isSome = true →
      registerOldWorkerAttr s newName compat = none) := by
  refine ⟨?_, ?_, ?_, ?_, ?_, ?_, ?_⟩
  · simp [define_old_worker_property, hcn, hdup]
  · simp [define_old_worker_method, hcn, hdup]
  · simp [define_old_worker_func, hcn]
  · simp [define_old_worker_class, hcn]
  · intro attr hfind
    simp [deprecatedWorkerModuleAttribute, hfind, hcn]
  · intro s hs
    simp [registerOldWorkerAttr, hcn, hs]
  · intro s m hs hmap hm
    simp [registerOldWorkerAttr, hcn, hs, getCompatAttrs, hmap, hm]

/-- Closed instantiation of `c1_duplicate_handling`. -/
theorem c1_duplicate_handling_witness :
    define_old_worker_property
      [("someWorker".data, Obj.val 7), ("someSlave".data, Obj.val 0)]
      "someWorker".data none = none ∧
    define_old_worker_method
      [("someWorker".data, Obj.val 7), ("someSlave".data, Obj.val 0)]
      "someWorker".data none = none ∧
    define_old_worker_func
      [("someWorker".data, Obj.val 7), ("someSlave".data, Obj.val 0)]
      "someWorker".data none =
      some (dictSet [("someWorker".data, Obj.val 7), ("someSlave".data, Obj.val 0)]
        "someSlave".data (.funcWrapper "someWorker".data)) ∧
    define_old_worker_class
      [("someWorker".data, Obj.val 7), ("someSlave".data, Obj.val 0)]
      "someWorker".data none =
      some (dictSet [("someWorker".data, Obj.val 7), ("someSlave".data, Obj.val 0)]
        "someSlave".data (.classWrapper "someWorker".data)) ∧
    deprecatedWorkerModuleAttribute
      [("someWorker".data, Obj.val 7), ("someSlave".data, Obj.val 0)]
      (Obj.val 7) none =
      some (dictSet [("someWorker".data, Obj.val 7), ("someSlave".data, Obj.val 0)]
        "someSlave".data (Obj.val 7)) ∧
    registerOldWorkerAttr ⟨"C".data, [("someSlave".data, PyVal.num 1)]⟩
      "someWorker".data none = none ∧
    registerOldWorkerAttr
      ⟨"C".data, [(compatAttrsKey,
        PyVal.attrMap [("someSlave".data, "otherWorker".data)])]⟩
      "someWorker".data none = none := by
  have h := c1_duplicate_handling
    [("someWorker".data, Obj.val 7), ("someSlave".data, Obj.val 0)]
    "someWorker".data none "someSlave".data (by decide) (by decide)
  exact ⟨h.1, h.2.1, h.2.2.1, h.2.2.2.1,
    h.2.2.2.2.1 (Obj.val 7) (by decide),
    h.2.2.2.2.2.1 ⟨"C".data, [("someSlave".data, PyVal.num 1)]⟩ (by decide),
    h.2.2.2.2.2.2
      ⟨"C".data, [(compatAttrsKey,
        PyVal.attrMap [("someSlave".data, "otherWorker".data)])]⟩
      [("someSlave".data, "otherWorker".data)] (by decide) (by decide) (by decide)⟩

/-- Claim C4: the legacy function wrapper returns exactly what the
canonical function returns on the same arguments and adds exactly one
category-NAME deprecation event per call; the legacy method wrapper
looks the canonical method up on `self`, returns exactly its result on
the same arguments, and adds exactly one category-NAME deprecation
event per call. -/
theorem c4_wrapper_equivalence {α β : Type} (funcName cnF methodName cnM : PyStr)
    (func : α → β × List Event) (a : α) (self : MethodObj α β) :
    ((mkOldFunc funcName cnF func a).1 = (func a).1 ∧
      countNameEvts (mkOldFunc funcName cnF func a).2 = countNameEvts (func a).2 + 1 ∧
      (countNameEvts (func a).2 = 0 →
        countNameEvts (mkOldFunc funcName cnF func a).2 = 1)) ∧
    (∀ m, dictGet self.methods methodName = some m →
      mkOldMethod methodName cnM self a =
        some ((m a).1, Event.nameEvt (methodDeprMsg cnM methodName) :: (m a).2) ∧
      countNameEvts (Event.nameEvt (methodDeprMsg cnM methodName) :: (m a).2) =
        countNameEvts (m a).2 + 1 ∧
      (countNameEvts (m a).2 = 0 →
        countNameEvts (Event.nameEvt (methodDeprMsg cnM methodName) :: (m a).2) = 1)) := by
  constructor
  · refine ⟨rfl, countNameEvts_cons_name _ _, ?_⟩
    intro h0
    rw [show (mkOldFunc funcName cnF func a).2 =
      Event.nameEvt (funcDeprMsg cnF funcName) :: (func a).2 from rfl,
      countNameEvts_cons_name, h0]
  · intro m hm
    refine ⟨?_, countNameEvts_cons_name _ _, ?_⟩
    · simp [mkOldMethod, hm]
    · intro h0
      rw [countNameEvts_cons_name, h0]

/-- Closed instantiation of `c4_wrapper_equivalence`. -/
theorem c4_wrapper_equivalence_witness :
    ((mkOldFunc "checkWorker".data "checkSlave".data
        (fun x : Nat => (x + 1, [])) 3).1 = ((3 : Nat) + 1, ([] : List Event)).1 ∧
      countNameEvts (mkOldFunc "checkWorker".data "checkSlave".data
        (fun x : Nat => (x + 1, [])) 3).2 = countNameEvts [] + 1 ∧
      countNameEvts (mkOldFunc "checkWorker".data "checkSlave".data
        (fun x : Nat => (x + 1, [])) 3).2 = 1) ∧
    (mkOldMethod "fetchWorker".data "fetchSlave".data
        (MethodObj.mk [("fetchWorker".data, fun x : Nat => (x * 2, []))]) 3 =
      some (6, [Event.nameEvt (methodDeprMsg "fetchSlave".data "fetchWorker".data)]) ∧
      countNameEvts [Event.nameEvt (methodDeprMsg "fetchSlave".data "fetchWorker".data)] = 1) := by
  have h := c4_wrapper_equivalence "checkWorker".data "checkSlave".data
    "fetchWorker".data "fetchSlave".data (fun x : Nat => (x + 1, [])) 3
    (MethodObj.mk [("fetchWorker".data, fun x : Nat => (x * 2, []))])
  have hm := h.2 (fun x : Nat => (x * 2, [])) (by simp [dictGet])
  exact ⟨⟨h.1.1, h.1.2.1, h.1.2.2 rfl⟩, ⟨hm.1, hm.2.2 rfl⟩⟩

/-- Claim C5: instantiating the compat class built by
`deprecated_worker_class` emits exactly one deprecation notification
and constructs an instance belonging to the canonical class hierarchy
(the canonical class is among the compat class's bases, and the
instance is an instance of the compat class, hence of the canonical
class).  Both construction forms are supported: with no overloaded
construction hook the instance is built through `object.__new__` with
no extra arguments, and with an overloaded hook the hook receives the
instantiated class and the original arguments. -/
theorem c5_class_alias (cls : PyClass) (override : Option PyStr)
    (c : CompatClass) (args : List Nat)
    (h : deprecated_worker_class cls override = some c) :
    (c.mkInst args).2 = [Event.nameEvt (classDeprMsg c.name cls.name)] ∧
    countNameEvts (c.mkInst args).2 = 1 ∧
    c.bases = cls.name :: cls.ancestors ∧
    cls.name ∈ c.bases ∧
    (cls.newHook = none →
      (c.mkInst args).1 = objectNew c.name ∧
      isInstanceOf (c.mkInst args).1 c cls.name) ∧
    (∀ hook, cls.newHook = some hook →
      (c.mkInst args).1 = hook c.name args ∧
      ((∀ icn as, (hook icn as).clsName = icn) →
        isInstanceOf (c.mkInst args).1 c cls.name)) := by
  unfold deprecated_worker_class at h
  cases hf : compatNameF cls.name override with
  | none => rw [hf] at h; simp at h
  | some cn =>
    rw [hf] at h
    simp only [Option.some.injEq] at h
    subst h
    cases hk : cls.newHook with
    | none =>
      refine ⟨rfl, rfl, rfl, List.mem_cons_self _ _, ?_, ?_⟩
      · intro _
        exact ⟨rfl, rfl, Or.inr (List.mem_cons_self _ _)⟩
      · intro hook hh
        exact absurd hh (by simp)
    | some hook0 =>
      refine ⟨rfl, rfl, rfl, List.mem_cons_self _ _, ?_, ?_⟩
      · intro hh
        exact absurd hh (by simp)
      · intro hook hh
        simp only [Option.some.injEq] at hh
        subst hh
        exact ⟨rfl, fun hwf => ⟨hwf _ _, Or.inr (List.mem_cons_self _ _)⟩⟩

/-- Closed instantiation of `c5_class_alias`, once for a class with the
default construction hook and once for a class with an overloaded one. -/
theorem c5_class_alias_witness :
    (∀ c : CompatClass,
      deprecated_worker_class ⟨"MyWorker".data, [], none⟩ none = some c →
      (c.mkInst [4]).2 =
        [Event.nameEvt (classDeprMsg c.name "MyWorker".data)] ∧
      countNameEvts (c.mkInst [4]).2 = 1 ∧
      (c.mkInst [4]).1 = objectNew c.name ∧
      isInstanceOf (c.mkInst [4]).1 c "MyWorker".data) ∧
    (∀ c : CompatClass,
      deprecated_worker_class
        ⟨"OtherWorker".data, [], some (fun icn as => ⟨icn, as⟩)⟩ none = some c →
      (c.mkInst [4]).1 = Inst.mk c.name [4] ∧
      isInstanceOf (c.mkInst [4]).1 c "OtherWorker".data) := by
  constructor
  · intro c hc
    have h := c5_class_alias ⟨"MyWorker".data, [], none⟩ none c [4] hc
    have h5 := h.2.2.2.2.1 rfl
    exact ⟨h.1, h.2.1, h5.1, h5.2⟩
  · intro c hc
    have h := c5_class_alias
      ⟨"OtherWorker".data, [], some (fun icn as => ⟨icn, as⟩)⟩ none c [4] hc
    have h6 := h.2.2.2.2.2 (fun icn as => ⟨icn, as⟩) rfl
    exact ⟨h6.1, h6.2 (fun _ _ => rfl)⟩

/-- Claim C8: `deprecatedWorkerModuleAttribute` binds the legacy name in
the same scope directly to the very same value that the canonical name
is bound to — no wrapper is interposed, the value is shared between the
two names. -/
theorem c8_module_attr_binding (scope : Scope) (attr : Obj)
    (compat : Option PyStr) (attrName cn : PyStr)
    (hnd : (scope.map Prod.fst).Nodup)
    (hfind : findAttrName scope attr = some attrName)
    (hcn : compatNameF attrName compat = some cn) :
    deprecatedWorkerModuleAttribute scope attr compat =
      some (dictSet scope cn attr) ∧
    dictGet scope attrName = some attr ∧
    dictGet (dictSet scope cn attr) cn = some attr ∧
    dictGet (dictSet scope cn attr) attrName = some attr := by
  refine ⟨by simp [deprecatedWorkerModuleAttribute, hfind, hcn],
    findAttrName_dictGet scope attr attrName hnd hfind,
    dictGet_dictSet_same scope cn attr, ?_⟩
  by_cases he : attrName = cn
  · subst he
    exact dictGet_dictSet_same scope attrName attr
  · rw [dictGet_dictSet_other scope cn attrName attr he]
    exact findAttrName_dictGet scope attr attrName hnd hfind

/-- Closed instantiation of `c8_module_attr_binding`. -/
theorem c8_module_attr_binding_witness :
    deprecatedWorkerModuleAttribute [("buildbotWorker".data, Obj.val 3)]
      (Obj.val 3) none =
      some (dictSet [("buildbotWorker".data, Obj.val 3)]
        "buildbotSlave".data (Obj.val 3)) ∧
    dictGet [("buildbotWorker".data, Obj.val 3)] "buildbotWorker".data =
      some (Obj.val 3) ∧
    dictGet (dictSet [("buildbotWorker".data, Obj.val 3)]
      "buildbotSlave".data (Obj.val 3)) "buildbotSlave".data = some (Obj.val 3) ∧
    dictGet (dictSet [("buildbotWorker".data, Obj.val 3)]
      "buildbotSlave".data (Obj.val 3)) "buildbotWorker".data = some (Obj.val 3) :=
  c8_module_attr_binding [("buildbotWorker".data, Obj.val 3)] (Obj.val 3) none
    "buildbotWorker".data "buildbotSlave".data (by decide) (by decide) (by decide)

theorem isPrefixOf_append_self (l t : PyStr) : l.isPrefixOf (l ++ t) = true := by
  induction l with
  | nil => simp [List.isPrefixOf]
  | cons a as ih => simp [List.isPrefixOf, ih]

/-- A string built around `pat` contains `pat` as a substring. -/
theorem containsSub_sandwich (pat pre suf : PyStr) :
    containsSub pat (pre ++ (pat ++ suf)) = true := by
  induction pre with
  | nil =>
    simp only [List.nil_append]
    cases hps : pat ++ suf with
    | nil =>
      have hp : pat = [] := by cases pat <;> simp_all
      subst hp
      simp [containsSub, List.isEmpty]
    | cons c rest =>
      rw [containsSub, ← hps, isPrefixOf_append_self]
      simp
  | cons p pre ih =>
    rw [List.cons_append, containsSub, ih]
    simp

/-- Claim C6: on an instance whose alias map sends the legacy name to
the canonical attribute (with no shadow field under the legacy name and
no further aliasing of the canonical name), assigning through the
legacy name emits exactly one category-NAME deprecation event and
stores the value under the canonical attribute, leaving the legacy name
without a `__dict__` entry of its own; a subsequent read through the
legacy name returns that value and emits exactly one category-NAME
deprecation event. -/
theorem c6_legacy_attr_roundtrip (n : Nat) (s : MixinState)
    (m : List (PyStr × PyStr)) (legacy canon : PyStr) (v : PyVal)
    (hmap : dictGet s.dict compatAttrsKey = some (.attrMap m))
    (hreg : dictGet m legacy = some canon)
    (hcanon : dictGet m canon = none)
    (hshadow : dictGet s.dict legacy = none)
    (hck : canon ≠ compatAttrsKey) :
    pySetattr (n + 2) s legacy v =
      some ({ s with dict := dictSet s.dict canon v },
        [Event.nameEvt (attrDeprMsg legacy canon)]) ∧
    dictGet (dictSet s.dict canon v) canon = some v ∧
    dictGet (dictSet s.dict canon v) legacy = none ∧
    pyGetattr (n + 2) { s with dict := dictSet s.dict canon v } legacy =
      some (.ok v { s with dict := dictSet s.dict canon v }
        [Event.nameEvt (attrDeprMsg legacy canon)]) ∧
    countNameEvts [Event.nameEvt (attrDeprMsg legacy canon)] = 1 := by
  have hlc : legacy ≠ canon := by
    intro he
    rw [he, hcanon] at hreg
    exact Option.noConfusion hreg
  have hlk : legacy ≠ compatAttrsKey := by
    intro he
    rw [he, hmap] at hshadow
    exact Option.noConfusion hshadow
  have hga : getCompatAttrs s = some (m, s) := by
    rw [getCompatAttrs, hmap]
  have hset : pySetattr (n + 2) s legacy v =
      some ({ s with dict := dictSet s.dict canon v },
        [Event.nameEvt (attrDeprMsg legacy canon)]) := by
    rw [pySetattr, hga]
    simp only [hreg]
    rw [pySetattr, hga]
    simp only [hcanon]
  have hget_canon : dictGet (dictSet s.dict canon v) canon = some v :=
    dictGet_dictSet_same s.dict canon v
  have hget_legacy : dictGet (dictSet s.dict canon v) legacy = none := by
    rw [dictGet_dictSet_other s.dict canon legacy v hlc, hshadow]
  have hga2 : getCompatAttrs { s with dict := dictSet s.dict canon v } =
      some (m, { s with dict := dictSet s.dict canon v }) := by
    rw [getCompatAttrs]
    simp only
    rw [dictGet_dictSet_other s.dict canon compatAttrsKey v
      (fun he => hck he.symm), hmap]
  refine ⟨hset, hget_canon, hget_legacy, ?_, rfl⟩
  rw [pyGetattr]
  simp only [hget_legacy]
  rw [hga2]
  simp only [hreg]
  rw [pyGetattr]
  simp only [hget_canon]

/-- Closed instantiation of `c6_legacy_attr_roundtrip`. -/
theorem c6_legacy_attr_roundtrip_witness :
    pySetattr 2
      ⟨"C".data, [(compatAttrsKey,
        PyVal.attrMap [("buildslave".data, "buildworker".data)])]⟩
      "buildslave".data (PyVal.num 5) =
      some (⟨"C".data, [(compatAttrsKey,
          PyVal.attrMap [("buildslave".data, "buildworker".data)]),
          ("buildworker".data, PyVal.num 5)]⟩,
        [Event.nameEvt (attrDeprMsg "buildslave".data "buildworker".data)]) ∧
    pyGetattr 2
      ⟨"C".data, [(compatAttrsKey,
          PyVal.attrMap [("buildslave".data, "buildworker".data)]),
          ("buildworker".data, PyVal.num 5)]⟩
      "buildslave".data =
      some (.ok (PyVal.num 5)
        ⟨"C".data, [(compatAttrsKey,
            PyVal.attrMap [("buildslave".data, "buildworker".data)]),
            ("buildworker".data, PyVal.num 5)]⟩
        [Event.nameEvt (attrDeprMsg "buildslave".data "buildworker".data)]) ∧
    countNameEvts [Event.nameEvt (attrDeprMsg "buildslave".data "buildworker".data)] = 1 := by
  have h := c6_legacy_attr_roundtrip 0
    ⟨"C".data, [(compatAttrsKey,
      PyVal.attrMap [("buildslave".data, "buildworker".data)])]⟩
    [("buildslave".data, "buildworker".data)]
    "buildslave".data "buildworker".data (PyVal.num 5)
    (by decide) (by decide) (by decide) (by decide) (by decide)
  exact ⟨h.1, h.2.2.2.1, h.2.2.2.2⟩

/-- Claim C7: reading an attribute that is neither in the instance
dictionary nor registered in the alias map raises an AttributeError
whose message names the class and the missing attribute, with no
deprecation event fired. -/
theorem c7_missing_attr (n : Nat) (s : MixinState) (name : PyStr)
    (hmiss : dictGet s.dict name = none)
    (hm : dictGet s.dict compatAttrsKey = none ∨
      ∃ m, dictGet s.dict compatAttrsKey = some (.attrMap m) ∧
        dictGet m name = none) :
    pyGetattr (n + 1) s name =
      some (.attrError (attrErrMsg s.className name) []) ∧
    countNameEvts ([] : List Event) = 0 ∧
    containsSub s.className (attrErrMsg s.className name) = true ∧
    containsSub name (attrErrMsg s.className name) = true := by
  refine ⟨?_, rfl, ?_, ?_⟩
  · rw [pyGetattr]
    simp only [hmiss]
    cases hm with
    | inl h0 =>
      rw [getCompatAttrs, h0]
      simp only [dictGet]
    | inr h1 =>
      obtain ⟨m, hmm, hnone⟩ := h1
      rw [getCompatAttrs, hmm]
      simp only [hnone]
  · rw [show attrErrMsg s.className name =
      [quoteChar] ++ (s.className ++ ([quoteChar] ++
        " object has no attribute ".data ++ quoted name)) from by
      simp [attrErrMsg, quoted]]
    exact containsSub_sandwich s.className [quoteChar] _
  · rw [show attrErrMsg s.className name =
      (quoted s.className ++ " object has no attribute ".data ++ [quoteChar]) ++
        (name ++ [quoteChar]) from by
      simp [attrErrMsg, quoted]]
    exact containsSub_sandwich name _ [quoteChar]

/-- Closed instantiation of `c7_missing_attr`. -/
theorem c7_missing_attr_witness :
    pyGetattr 1 ⟨"Build".data, [("other".data, PyVal.num 2)]⟩ "missing".data =
      some (.attrError (attrErrMsg "Build".data "missing".data) []) ∧
    countNameEvts ([] : List Event) = 0 ∧
    containsSub "Build".data (attrErrMsg "Build".data "missing".data) = true ∧
    containsSub "missing".data (attrErrMsg "Build".data "missing".data) = true :=
  c7_missing_attr 0 ⟨"Build".data, [("other".data, PyVal.num 2)]⟩ "missing".data
    (by decide) (Or.inl (by decide))

/-- Claim C10 as stated is false: the reserved alias-map key
`_compat_attrs_mapping` is itself not a registered legacy name, yet an
ordinary assignment to it replaces the Per-instance Alias Map (here,
emptying it), so "the Per-instance Alias Map is left unchanged" fails
for that one attribute name. -/
theorem c10_counterexample :
    dictGet [("buildslave".data, "buildworker".data)] compatAttrsKey = none ∧
    pySetattr 1
      ⟨"C".data, [(compatAttrsKey,
        PyVal.attrMap [("buildslave".data, "buildworker".data)])]⟩
      compatAttrsKey (PyVal.attrMap []) =
      some (⟨"C".data, [(compatAttrsKey, PyVal.attrMap [])]⟩, []) ∧
    PyVal.attrMap [("buildslave".data, "buildworker".data)] ≠ PyVal.attrMap [] := by
  decide

/-- Claim C10 amended: assigning to an attribute name that is not a
registered legacy name and is not the reserved alias-map key
`_compat_attrs_mapping` performs an ordinary assignment with no
deprecation event: the assigned attribute gets the value, every other
attribute is unchanged, and the alias map keeps its contents (it is at
most lazily created, empty, on an instance that did not have one yet);
assigning to the reserved key itself replaces the alias map. -/
theorem c10_ordinary_setattr_frame (n : Nat) (s s1 : MixinState)
    (m : List (PyStr × PyStr)) (name : PyStr) (v : PyVal)
    (hga : getCompatAttrs s = some (m, s1))
    (hnot : dictGet m name = none)
    (hkey : name ≠ compatAttrsKey) :
    pySetattr (n + 1) s name v =
      some ({ s1 with dict := dictSet s1.dict name v }, []) ∧
    dictGet (dictSet s1.dict name v) name = some v ∧
    (∀ k, k ≠ name → k ≠ compatAttrsKey →
      dictGet (dictSet s1.dict name v) k = dictGet s.dict k) ∧
    (∀ mm, dictGet s.dict compatAttrsKey = some (.attrMap mm) →
      dictGet (dictSet s1.dict name v) compatAttrsKey = some (.attrMap mm)) ∧
    (dictGet s.dict compatAttrsKey = none →
      dictGet (dictSet s1.dict name v) compatAttrsKey = some (.attrMap [])) := by
  obtain ⟨hcls, hmap1, hframe1, hcases⟩ := getCompatAttrs_spec s m s1 hga
  refine ⟨?_, dictGet_dictSet_same s1.dict name v, ?_, ?_, ?_⟩
  · rw [pySetattr, hga]
    simp only [hnot]
  · intro k hk1 hk2
    rw [dictGet_dictSet_other s1.dict name k v hk1]
    exact hframe1 k hk2
  · intro mm hmm
    rw [dictGet_dictSet_other s1.dict name compatAttrsKey v (Ne.symm hkey), hmap1]
    cases hcases with
    | inl h0 => rw [h0] at hmm; exact hmm ▸ rfl
    | inr h0 => rw [h0.1] at hmm; exact Option.noConfusion hmm
  · intro h0
    rw [dictGet_dictSet_other s1.dict name compatAttrsKey v (Ne.symm hkey), hmap1]
    cases hcases with
    | inl h1 => rw [h1] at h0; exact Option.noConfusion h0
    | inr h1 => rw [h1.2]

/-- Closed instantiation of `c10_ordinary_setattr_frame`. -/
theorem c10_ordinary_setattr_frame_witness :
    pySetattr 1
      ⟨"C".data, [(compatAttrsKey,
          PyVal.attrMap [("buildslave".data, "buildworker".data)]),
        ("old".data, PyVal.num 1)]⟩
      "fresh".data (PyVal.num 9) =
      some (⟨"C".data, [(compatAttrsKey,
          PyVal.attrMap [("buildslave".data, "buildworker".data)]),
        ("old".data, PyVal.num 1), ("fresh".data, PyVal.num 9)]⟩, []) ∧
    dictGet [(compatAttrsKey,
        PyVal.attrMap [("buildslave".data, "buildworker".data)]),
      ("old".data, PyVal.num 1), ("fresh".data, PyVal.num 9)] "fresh".data =
      some (PyVal.num 9) ∧
    dictGet [(compatAttrsKey,
        PyVal.attrMap [("buildslave".data, "buildworker".data)]),
      ("old".data, PyVal.num 1), ("fresh".data, PyVal.num 9)] "old".data =
      some (PyVal.num 1) ∧
    dictGet [(compatAttrsKey,
        PyVal.attrMap [("buildslave".data, "buildworker".data)]),
      ("old".data, PyVal.num 1), ("fresh".data, PyVal.num 9)] compatAttrsKey =
      some (PyVal.attrMap [("buildslave".data, "buildworker".data)]) := by
  have h := c10_ordinary_setattr_frame 0
    ⟨"C".data, [(compatAttrsKey,
        PyVal.attrMap [("buildslave".data, "buildworker".data)]),
      ("old".data, PyVal.num 1)]⟩
    ⟨"C".data, [(compatAttrsKey,
        PyVal.attrMap [("buildslave".data, "buildworker".data)]),
      ("old".data, PyVal.num 1)]⟩
    [("buildslave".data, "buildworker".data)]
    "fresh".data (PyVal.num 9) (by decide) (by decide) (by decide)
  refine ⟨h.1, h.2.1, ?_, ?_⟩
  · exact (h.2.2.1 "old".data (by decide) (by decide)).trans (by decide)
  · exact h.2.2.2.1 [("buildslave".data, "buildworker".data)] (by decide)

end WorkerTransition
